import Mathlib

/-!
Verification of the morgonradio script-to-audio assembly engine.

The definitions below are shallow embeddings of the Python source:
  - `src/tts_generator.py` : `parse_conversation`, `build_complete_dialogue_inputs`,
    `split_dialogue_by_character_limit`, `remove_music_markers`,
    `is_conversation_format`, the sequence-building loop of
    `integrate_music_with_speech`;
  - `src/music_library.py` : `add_track`, `remove_track`, `_calculate_md5`,
    `extract_music_cues_from_script`;
  - `src/main.py` : `combine_intro_and_main`.

Python strings are modelled as Lean `String` / `List Char`; the regular
expressions used by the source are embedded as explicit scanners with the
same matching semantics on the patterns the source uses.  External effects
(filesystem, ffmpeg, the TTS provider, MD5) are modelled as explicit
parameters: the filesystem as a list of existing paths, process outcomes as
booleans, and the MD5 hex digest as a function argument.
-/

namespace Morgonradio

/-! ## Character and string helpers (Python `str` semantics) -/

/-- Python whitespace class used by `str.strip` and the regex class `\s`
(ASCII part, which is all the source scripts use). -/
def isPySpace (c : Char) : Bool :=
  c = ' ' || c = '\t' || c = '\n' || c = '\r' || c = '\x0b' || c = '\x0c'

/-- Python `str.strip()` on a character list. -/
def pyStripList (cs : List Char) : List Char :=
  ((cs.dropWhile isPySpace).reverse.dropWhile isPySpace).reverse

/-- Python `str.strip()`. -/
def pyStrip (s : String) : String :=
  String.mk (pyStripList s.data)

/-- ASCII lowercase of one character (Python `str.lower()` on the ASCII
range the source data uses). -/
def pyLowerChar (c : Char) : Char :=
  if 'A' ≤ c && c ≤ 'Z' then Char.ofNat (c.toNat + 32) else c

/-- Python `str.lower()`. -/
def pyLower (s : String) : String := String.mk (s.data.map pyLowerChar)

/-- Python `text.split('\n')`: split on every newline, keeping empty parts. -/
def splitOnNewline : List Char → List (List Char)
  | [] => [[]]
  | c :: rest =>
    let r := splitOnNewline rest
    if c = '\n' then [] :: r
    else
      match r with
      | [] => [[c]]
      | h :: t => (c :: h) :: t

/-- Python `line.split(':', 1)` when a colon is present: the part before the
first colon and the part after it. -/
def splitColon1 : List Char → List Char × List Char
  | [] => ([], [])
  | c :: rest =>
    if c = ':' then ([], rest)
    else
      let p := splitColon1 rest
      (c :: p.1, p.2)

/-! ## Data model: segments and dialogue inputs -/

/-- A parsed script segment, as produced by `parse_conversation`
(`tts_generator.py`): either a speaker's dialogue or a music marker line
(the Python code tags the latter with `is_music: True`). -/
inductive Segment where
  | dialogue (speaker : String) (content : String)
  | music (content : String)
deriving DecidableEq

def Segment.isDialogue : Segment → Bool
  | .dialogue _ _ => true
  | .music _ => false

/-- One `DialogueInput` handed to the provider: the spoken text and the
voice chosen for the speaker (`elevenlabs.DialogueInput`). -/
structure DialogueInput where
  text : String
  voice_id : String
deriving DecidableEq

/-! ## `parse_conversation` (tts_generator.py lines 453-517) -/

/-- Scanner for the regex body `[^\]]+\]`: at least one character other than
a closing bracket, then a closing bracket.  Greedy matching of `[^\]]+`
stops at the first bracket, so this is exact. -/
def musicBodyClose : List Char → Bool
  | [] => false
  | c :: rest => if c = ']' then true else musicBodyClose rest

/-- Does this position start a match of the (case-sensitive) pattern
`\[MUSIK:[^\]]+\]` used by `parse_conversation`? -/
def musicMarkerAt (cs : List Char) : Bool :=
  match cs with
  | '[' :: 'M' :: 'U' :: 'S' :: 'I' :: 'K' :: ':' :: rest =>
    match rest with
    | [] => false
    | c :: rest2 => if c = ']' then false else musicBodyClose rest2
  | _ => false

/-- `re.search(r'\[MUSIK:[^\]]+\]', line)`: a match anywhere in the line. -/
def hasMusicMarker : List Char → Bool
  | [] => false
  | c :: rest => musicMarkerAt (c :: rest) || hasMusicMarker rest

/-- Python truthiness of the `current_speaker` variable (`None` or a string;
the empty string is falsy). -/
def speakerTruthy : Option String → Bool
  | none => false
  | some s => s ≠ ""

/-- The flush step `if current_speaker and current_content: segments.append(...)`:
emit the pending dialogue segment if both are truthy. -/
def flushSegment (sp : Option String) (content : List String) : List Segment :=
  if speakerTruthy sp && !content.isEmpty then
    match sp with
    | some s => [Segment.dialogue s (String.intercalate " " content)]
    | none => []
  else []

/-- The line loop of `parse_conversation`, carrying `current_speaker` and
`current_content`.  Mirrors the source exactly, including the detail that a
music line resets `current_content` only when a segment was actually
flushed, and that the speaker-change test is just `':' in line` (the
stripped line can never start with a space). -/
def parseLoop : List (List Char) → Option String → List String → List Segment
  | [], sp, content => flushSegment sp content
  | l :: rest, sp, content =>
    let line := pyStripList l
    if line.isEmpty then parseLoop rest sp content
    else if hasMusicMarker line then
      let flushed := flushSegment sp content
      let content1 := if flushed.isEmpty then content else []
      flushed ++ Segment.music (String.mk line) :: parseLoop rest none content1
    else if line.contains ':' then
      let parts := splitColon1 line
      let flushed := flushSegment sp content
      let newSpeaker := String.mk (pyStripList parts.1)
      let tail := String.mk (pyStripList parts.2)
      let newContent := if tail ≠ "" then [tail] else []
      flushed ++ parseLoop rest (some newSpeaker) newContent
    else
      parseLoop rest sp (content ++ [String.mk line])

/-- `parse_conversation(text)`: parse the script into an ordered segment
stream. -/
def parse_conversation (text : String) : List Segment :=
  parseLoop (splitOnNewline text.data) none []

/-! ## Music-position scan and the chunker
(`split_dialogue_by_character_limit`, tts_generator.py lines 199-269) -/

/-- The music-position loop (lines 209-221): walk the parsed segments,
counting dialogue segments; at each music segment record the current
dialogue count (the dialogue-stream position of the next dialogue unit). -/
def musicPosLoop : List Segment → Nat → List Nat
  | [], _ => []
  | .music _ :: rest, n => n :: musicPosLoop rest n
  | .dialogue _ _ :: rest, n => musicPosLoop rest (n + 1)

/-- Lines 205-221: the forced-break positions, computed from the original
script text (the Python guard `if original_text:` returns no positions for
an empty string). -/
def find_music_positions (original_text : String) : List Nat :=
  if original_text = "" then []
  else musicPosLoop (parse_conversation original_text) 0

/-- The chunking loop (lines 228-249), carrying `chunks`, `current_chunk`,
`current_chars` and `dialogue_index` exactly as the source does. -/
def splitGo (maxChars : Nat) (music : List Nat) :
    List DialogueInput → List (List DialogueInput) → List DialogueInput → Nat → Nat →
    List (List DialogueInput)
  | [], chunks, cur, _, _ => if cur.isEmpty then chunks else chunks ++ [cur]
  | d :: rest, chunks, cur, chars, idx =>
    if (maxChars < chars + d.text.length ∨ idx ∈ music) ∧ cur ≠ [] then
      splitGo maxChars music rest (chunks ++ [cur]) [d] d.text.length (idx + 1)
    else
      splitGo maxChars music rest chunks (cur ++ [d]) (chars + d.text.length) (idx + 1)

/-- The mapping loop (lines 253-267): for each chunk, the music positions
falling inside its dialogue-position range; an entry is created only when
that list is non-empty (Python only inserts a dict key on a hit).  The
Python bound `chunk_start <= pos <= chunk_start + len - 1` over ints equals
`pos < chunk_start + len` here. -/
def mappingLoop (music : List Nat) :
    List (List DialogueInput) → Nat → Nat → List (Nat × List Nat)
  | [], _, _ => []
  | c :: rest, chunkIdx, pos =>
    let ms := music.filter (fun m => pos ≤ m && m < pos + c.length)
    (if ms.isEmpty then [] else [(chunkIdx, ms)]) ++
      mappingLoop music rest (chunkIdx + 1) (pos + c.length)

/-- The body of `split_dialogue_by_character_limit` once the music
positions are known. -/
def split_core (inputs : List DialogueInput) (maxChars : Nat) (music : List Nat) :
    List (List DialogueInput) × List (Nat × List Nat) :=
  let chunks := splitGo maxChars music inputs [] [] 0 0
  (chunks, mappingLoop music chunks 0 0)

/-- `split_dialogue_by_character_limit(dialogue_inputs, max_chars, original_text)`:
returns the dialogue chunks and the chunk-to-music mapping. -/
def split_dialogue_by_character_limit (inputs : List DialogueInput) (maxChars : Nat)
    (original_text : String) : List (List DialogueInput) × List (Nat × List Nat) :=
  split_core inputs maxChars (find_music_positions original_text)

/-! ## Spec-side (refinement) definitions for the chunker -/

/-- Modelled from the spec wording (section 4.2, step 2): for every index
`k` holding a music segment, the number of dialogue segments strictly
before `k` in the full stream — the dialogue-stream position immediately
following that music segment — is a forced-break point. -/
def specForcedBreaks (segments : List Segment) : List Nat :=
  (List.range segments.length).filterMap (fun k =>
    match segments[k]? with
    | some (Segment.music _) => some ((segments.take k).countP Segment.isDialogue)
    | _ => none)

/-- Modelled from the spec wording (section 4.2, step 3 and C2): walk the
indexed dialogue units; close the current chunk when the unit's position is
a forced-break point or when adding it would push the running total over
`maxChars`, then start a new chunk with that unit; an empty pending chunk
is dropped, never emitted. -/
def specGo (maxChars : Nat) (breaks : List Nat) :
    List (Nat × DialogueInput) → List DialogueInput → Nat → List (List DialogueInput)
  | [], cur, _ => if cur.isEmpty then [] else [cur]
  | (i, d) :: rest, cur, chars =>
    if i ∈ breaks ∨ maxChars < chars + d.text.length then
      (if cur.isEmpty then [] else [cur]) ++ specGo maxChars breaks rest [d] d.text.length
    else
      specGo maxChars breaks rest (cur ++ [d]) (chars + d.text.length)

/-- The spec-side chunker applied to the whole dialogue-unit stream. -/
def specChunk (inputs : List DialogueInput) (maxChars : Nat) (breaks : List Nat) :
    List (List DialogueInput) :=
  specGo maxChars breaks inputs.enum [] 0

/-- Total character count of a pending chunk (the loop invariant value of
the source's `current_chars`). -/
def sumLen (cur : List DialogueInput) : Nat := (cur.map (fun d => d.text.length)).sum

/-! ## `is_conversation_format` and the `generate_audio` dispatch
(tts_generator.py lines 29-54) -/

/-- Python `line.split(':', 1)`: one part when the line has no colon, two
parts split at the first colon otherwise. -/
def pySplitColonOnce (line : String) : List String :=
  if line.data.contains ':' then
    [String.mk (splitColon1 line.data).1, String.mk (splitColon1 line.data).2]
  else [line]

/-- `is_conversation_format(text)` (lines 50-54): more than one line
satisfying the test `':' in line and len(line.split(':', 1)) == 2`. -/
def is_conversation_format (text : String) : Bool :=
  let lines := (splitOnNewline text.data).map String.mk
  let speaker_lines := lines.filter (fun line =>
    line.data.contains ':' && (pySplitColonOnce line).length == 2)
  decide (speaker_lines.length > 1)

/-- The two synthesis paths `generate_audio` can dispatch to. -/
inductive AudioPath where
  | conversation
  | singleVoice
deriving DecidableEq

/-- The dispatch in `generate_audio` (lines 39-44): the single-voice path
performs one provider call and never touches the chunker. -/
def generate_audio_route (text : String) : AudioPath :=
  if is_conversation_format text then AudioPath.conversation else AudioPath.singleVoice

/-- The speaker-line test the code actually applies (the filter of
`is_conversation_format`; `parse_conversation` uses the same test to detect
a speaker change): the line contains a colon anywhere.  This is strictly
weaker than the spec's speaker-line pattern below: a timestamp such as
`kl 10:30` or a bare `:` passes this test. -/
def codeSpeakerLineTest (l : List Char) : Bool := l.contains ':'

/-! ## `remove_music_markers` (tts_generator.py lines 567-578) -/

/-- Number of characters up to and including the first closing bracket. -/
def musicCloseLen : List Char → Option Nat
  | [] => none
  | c :: rest => if c = ']' then some 1 else (musicCloseLen rest).map (· + 1)

/-- Total length of a match of `\[MUSIK:[^\]]+\]` starting here, if any:
the seven-character head, one non-bracket character, then everything up to
and including the first closing bracket. -/
def musicMarkerLen (cs : List Char) : Option Nat :=
  match cs with
  | '[' :: 'M' :: 'U' :: 'S' :: 'I' :: 'K' :: ':' :: c :: rest =>
    if c = ']' then none
    else (musicCloseLen rest).map (fun n => 8 + n)
  | _ => none

/-- `re.sub(r'\[MUSIK:[^\]]+\]', '', text)`: drop every match, scanning
left to right and resuming after each match.  The fuel argument only bounds
the recursion; every step consumes at least one character, so fuel equal to
the remaining length (as the wrapper passes) is never exhausted. -/
def subMusicMarkersGo : Nat → List Char → List Char
  | 0, cs => cs
  | _ + 1, [] => []
  | fuel + 1, c :: rest =>
    match musicMarkerLen (c :: rest) with
    | some n => subMusicMarkersGo fuel (List.drop (n - 1) rest)
    | none => c :: subMusicMarkersGo fuel rest

def subMusicMarkers (cs : List Char) : List Char := subMusicMarkersGo cs.length cs

/-- Index of the last newline in the list, if any. -/
def lastNewlineIdx : List Char → Option Nat
  | [] => none
  | c :: rest =>
    match lastNewlineIdx rest with
    | some j => some (j + 1)
    | none => if c = '\n' then some 0 else none

/-- `re.sub(r'\n\s*\n', '\n\n', text)`: a newline followed by the longest
whitespace run still ending in a newline collapses to a blank line;
scanning resumes after the match. -/
def subBlankRunsGo : Nat → List Char → List Char
  | 0, cs => cs
  | _ + 1, [] => []
  | fuel + 1, c :: rest =>
    if c = '\n' then
      match lastNewlineIdx (rest.takeWhile isPySpace) with
      | some j => '\n' :: '\n' :: subBlankRunsGo fuel (List.drop (j + 1) rest)
      | none => c :: subBlankRunsGo fuel rest
    else c :: subBlankRunsGo fuel rest

def subBlankRuns (cs : List Char) : List Char := subBlankRunsGo cs.length cs

/-- `re.sub(r'  +', ' ', text)`: every maximal run of two or more spaces
becomes a single space (collapsing pairwise from the left yields the same
result as the greedy regex). -/
def subDoubleSpacesGo : Nat → List Char → List Char
  | 0, cs => cs
  | _ + 1, [] => []
  | fuel + 1, ' ' :: ' ' :: rest => subDoubleSpacesGo fuel (' ' :: rest)
  | fuel + 1, c :: rest => c :: subDoubleSpacesGo fuel rest

def subDoubleSpaces (cs : List Char) : List Char := subDoubleSpacesGo cs.length cs

/-- `remove_music_markers(text)` (lines 567-578): strip the music markers,
collapse blank-line runs, collapse double spaces, strip the ends. -/
def remove_music_markers (text : String) : String :=
  pyStrip (String.mk (subDoubleSpaces (subBlankRuns (subMusicMarkers text.data))))

/-! ## `build_complete_dialogue_inputs` (tts_generator.py lines 149-197) -/

/-- A configured podcast host: display name and provider voice id. -/
structure Host where
  name : String
  voice_id : String
deriving DecidableEq

/-- Modelled from the spec: the speaker-line pattern claim C7 names.
Section 6 pins it to `^<Name>: <text>$` with `<Name>` a configured host
name (matched case-insensitively per section 3): the line starts with a
host's name followed by a colon and a space. -/
def specSpeakerLine (hosts : List Host) (line : List Char) : Bool :=
  hosts.any (fun h =>
    List.isPrefixOf (h.name.data.map pyLowerChar ++ [':', ' ']) (line.map pyLowerChar))

/-- The voice-selection loop (lines 169-179): first host whose name matches
the speaker case-insensitively, else the first host (the caller guarantees
at least two hosts are configured). -/
def findVoice (hosts : List Host) (speaker : String) : String :=
  match hosts.find? (fun h => pyLower h.name == pyLower speaker) with
  | some h => h.voice_id
  | none =>
    match hosts with
    | h :: _ => h.voice_id
    | [] => ""

/-- `build_complete_dialogue_inputs(text, hosts)`: parse the text, skip
music segments and blank contents, and emit one provider input per
dialogue segment (`parse_conversation` never attaches an emotion key, so
the emotion-prefix branch of the source is inert on this path). -/
def build_complete_dialogue_inputs (text : String) (hosts : List Host) : List DialogueInput :=
  (parse_conversation text).foldl (fun acc seg =>
    match seg with
    | Segment.music _ => acc
    | Segment.dialogue speaker content =>
      let line := pyStrip content
      if line = "" then acc
      else acc ++ [⟨line, findVoice hosts speaker⟩]) []

/-! ## Music library (`music_library.py`) -/

/-- Persisted track metadata (`music_library.py` lines 105-117).  The
`added_at` timestamp and `file_size` come from the environment and carry no
logic, so they are outside the pure state. -/
structure Track where
  id : String
  artist : String
  title : String
  filename : String
  path : String
  categories : List String
  moods : List String
  description : String
deriving DecidableEq

/-- The mutable library state: the `tracks` object of `music_library.json`
as an insertion-ordered id-to-track map. -/
structure MusicLibraryState where
  tracks : List (String × Track)
deriving DecidableEq

/-- `_calculate_md5` (lines 63-69): the first 8 hex characters of the MD5
digest of the file content.  The digest itself is an external primitive,
passed in as a function of the bytes. -/
def calculate_md5 (md5hex : List Nat → String) (content : List Nat) : String :=
  String.mk ((md5hex content).data.take 8)

/-- `add_track` (lines 80-123): hash the content; if the id is already
catalogued, return it and change nothing; otherwise copy the file to
`audio/music/<id><ext>` and append the metadata entry. -/
def add_track (md5hex : List Nat → String) (lib : MusicLibraryState)
    (content : List Nat) (file_extension : String) (artist title : String)
    (categories moods : List String) (description : String) :
    MusicLibraryState × String :=
  let track_id := calculate_md5 md5hex content
  if (lib.tracks.lookup track_id).isSome then (lib, track_id)
  else
    let new_filename := track_id ++ file_extension
    let new_path := "audio/music/" ++ new_filename
    let track : Track :=
      ⟨track_id, artist, title, new_filename, new_path, categories, moods, description⟩
    (⟨lib.tracks ++ [(track_id, track)]⟩, track_id)

/-- `remove_track` (lines 152-169): an unknown id returns false and changes
nothing; a known id deletes the audio file only when it exists (the
`os.path.exists` guard), always drops the metadata key, and returns true.
The filesystem is modelled as the list of existing paths. -/
def remove_track (lib : MusicLibraryState) (fs : List String) (track_id : String) :
    MusicLibraryState × List String × Bool :=
  match lib.tracks.lookup track_id with
  | none => (lib, fs, false)
  | some track =>
    let fs1 := if fs.contains track.path then fs.erase track.path else fs
    (⟨lib.tracks.filter (fun p => !(p.1 == track_id))⟩, fs1, true)

/-! ## `extract_music_cues_from_script` (music_library.py lines 199-259) -/

/-- Case-insensitive character comparison, for `re.IGNORECASE`. -/
def charCI (c d : Char) : Bool := pyLowerChar c == pyLowerChar d

/-- The character class `[a-f0-9]` under `re.IGNORECASE`. -/
def isHexChar (c : Char) : Bool :=
  ('0' ≤ c && c ≤ '9') || ('a' ≤ c && c ≤ 'f') || ('A' ≤ c && c ≤ 'F')

/-- A match of `\[MUSIK:\s*([a-f0-9]{8})\]` (IGNORECASE) starting at this
position: the captured 8 characters and the total match length.  The
whitespace run is maximal; since whitespace, hex digits and the closing
bracket are disjoint classes, greedy matching needs no backtracking. -/
def idMarkerAt (cs : List Char) : Option (List Char × Nat) :=
  match cs with
  | c0 :: c1 :: c2 :: c3 :: c4 :: c5 :: c6 :: rest =>
    if c0 = '[' && charCI c1 'M' && charCI c2 'U' && charCI c3 'S' &&
        charCI c4 'I' && charCI c5 'K' && c6 = ':' then
      let ws := (rest.takeWhile isPySpace).length
      match rest.drop ws with
      | h0 :: h1 :: h2 :: h3 :: h4 :: h5 :: h6 :: h7 :: ']' :: _ =>
        if [h0, h1, h2, h3, h4, h5, h6, h7].all isHexChar then
          some ([h0, h1, h2, h3, h4, h5, h6, h7], 7 + ws + 9)
        else none
      | _ => none
    else none
  | _ => none

/-- `re.findall` for the id pattern: non-overlapping matches, scanning left
to right; a failed position advances by one character. -/
def findIdMatchesGo : Nat → List Char → List String
  | 0, _ => []
  | _ + 1, [] => []
  | fuel + 1, c :: rest =>
    match idMarkerAt (c :: rest) with
    | some (idchars, n) => String.mk idchars :: findIdMatchesGo fuel (List.drop (n - 1) rest)
    | none => findIdMatchesGo fuel rest

def findIdMatches (cs : List Char) : List String := findIdMatchesGo cs.length cs

/-- A music cue extracted from the script (the dicts built at lines 213-220
and 246-253).  The numeric duration is kept as its captured text; the
source only carries it along. -/
structure MusicCue where
  artist : String
  title : String
  duration : Option String
  track : Track
  marker : String
  id : String
deriving DecidableEq

/-- The cue built for a resolved ID-format marker (lines 213-220). -/
def mkIdCue (track_id : String) (track : Track) : MusicCue :=
  ⟨track.artist, track.title, none, track, "[MUSIK: " ++ track_id ++ "]", track_id⟩

/-- The ID pass (lines 205-224): each captured id, lowercased, that
resolves in the catalog contributes one cue; an unresolved id only logs a
warning. -/
def id_cues (tracks : List (String × Track)) (script : String) : List MusicCue :=
  (findIdMatches script.data).filterMap (fun m =>
    let tid := pyLower m
    match tracks.lookup tid with
    | some track => some (mkIdCue tid track)
    | none => none)

/-- The legacy-format resolution for one captured
`(artist, title, duration?)` triple (lines 231-257): case-insensitive exact
match on artist and title over the catalog values, first hit wins. -/
def legacyCueFor (tracks : List (String × Track)) (m : String × String × Option String) :
    Option MusicCue :=
  let artist := pyStrip m.1
  let title := pyStrip m.2.1
  match (tracks.map Prod.snd).find? (fun tr =>
      pyLower tr.artist == pyLower artist && pyLower tr.title == pyLower title) with
  | some track =>
    some ⟨artist, title, m.2.2, track,
      "[MUSIK: " ++ artist ++ " - " ++ title ++
        (match m.2.2 with
         | some dur => ", " ++ dur ++ " sekunder]"
         | none => "]"),
      track.id⟩
  | none => none

/-- `extract_music_cues_from_script(script)` (lines 199-259).  The
legacy-format regex captures are passed in as `(artist, title, duration?)`
triples; the control flow over them is the source's: the legacy pass runs
only when the ID pass produced no cues. -/
def extract_music_cues_from_script (tracks : List (String × Track)) (script : String)
    (legacyMatches : List (String × String × Option String)) : List MusicCue :=
  let cues := id_cues tracks script
  if cues.isEmpty then legacyMatches.filterMap (legacyCueFor tracks) else cues

/-! ## The assembly-sequence loop of `integrate_music_with_speech`
(tts_generator.py lines 618-642) -/

/-- One element of the assembly sequence: a dialogue chunk by index, or a
music cue's audio file. -/
inductive SeqItem where
  | dialogue (chunkIdx : Nat)
  | music (cue : MusicCue)
deriving DecidableEq

/-- The sequence-building loop: every dialogue chunk in order; after chunks
0, 1 and 3 (hardcoded `i in [0, 1, 3]` in the source), if cues remain, the
next cue is consumed and appended when its file exists. -/
def integrationLoop (music_cues : List MusicCue) (fs : List String) :
    List Nat → List SeqItem → Nat → List SeqItem
  | [], seq, _ => seq
  | i :: rest, seq, music_index =>
    let seq1 := seq ++ [SeqItem.dialogue i]
    if music_index < music_cues.length ∧ (i = 0 ∨ i = 1 ∨ i = 3) then
      match music_cues[music_index]? with
      | some cue =>
        integrationLoop music_cues fs rest
          (if fs.contains cue.track.path then seq1 ++ [SeqItem.music cue] else seq1)
          (music_index + 1)
      | none => integrationLoop music_cues fs rest seq1 (music_index + 1)
    else integrationLoop music_cues fs rest seq1 music_index

/-- The assembly-sequence plan `integrate_music_with_speech` builds for
`numChunks` dialogue chunks. -/
def integration_sequence (numChunks : Nat) (music_cues : List MusicCue) (fs : List String) :
    List SeqItem :=
  integrationLoop music_cues fs (List.range numChunks) [] 0

/-! ## `combine_intro_and_main` (main.py lines 108-216) -/

/-- `combine_intro_and_main`, with each external `ffmpeg` invocation's
outcome an explicit boolean: the crossfade path needs both normalizations
and the crossfade mix to succeed (any `CalledProcessError` aborts the
`try`); the fallback path re-normalizes and concatenates plainly; if that
fails too, the untouched main dialogue file is returned. -/
def combine_intro_and_main (intro_file main_file output_file : String)
    (norm_intro_ok norm_main_ok crossfade_ok : Bool)
    (fb_norm_intro_ok fb_norm_main_ok fb_concat_ok : Bool) : String :=
  if norm_intro_ok && norm_main_ok && crossfade_ok then output_file
  else if fb_norm_intro_ok && fb_norm_main_ok && fb_concat_ok then output_file
  else main_file

/-! ## Shared concrete data for the example scenarios -/

/-- The resolvable demo track with id `a1b2c3d4`. -/
def demoTrack : Track :=
  ⟨"a1b2c3d4", "ArtistA", "TitleA", "a1b2c3d4.mp3", "audio/music/a1b2c3d4.mp3", [], [], ""⟩

/-- A catalog holding exactly the demo track. -/
def demoCatalog : List (String × Track) := [("a1b2c3d4", demoTrack)]

/-- Two configured hosts. -/
def demoHosts : List Host := [⟨"Anna", "voiceAnna"⟩, ⟨"Erik", "voiceErik"⟩]

/-- The C4 test script. -/
def c4_script : String := "Anna: Hej!\n[MUSIK: a1b2c3d4]\nErik: God morgon!"

/-- The C3 failing script: two 10-character lines force a budget break at
`maxChars = 10`, then the music marker forces a break before the third
line, so the music belongs between chunks 1 and 2. -/
def c3_script : String :=
  "Anna: aaaaaaaaaa\nErik: bbbbbbbbbb\n[MUSIK: a1b2c3d4]\nAnna: cc"

/-- A 20-character dialogue unit, for the C5 witness. -/
def oversizedUnit : DialogueInput := ⟨"aaaaaaaaaaaaaaaaaaaa", "v1"⟩

theorem sumLen_nil : sumLen [] = 0 := rfl

theorem sumLen_singleton (d : DialogueInput) : sumLen [d] = d.text.length := by
  simp [sumLen]

theorem sumLen_append_singleton (cur : List DialogueInput) (d : DialogueInput) :
    sumLen (cur ++ [d]) = sumLen cur + d.text.length := by
  simp [sumLen]

/-! ## C1: chunk concatenation reproduces the input -/

theorem splitGo_join (maxChars : Nat) (music : List Nat)
    (rest : List DialogueInput) :
    ∀ (chunks : List (List DialogueInput)) (cur : List DialogueInput) (chars idx : Nat),
      (splitGo maxChars music rest chunks cur chars idx).flatten = chunks.flatten ++ cur ++ rest := by
  induction rest with
  | nil =>
    intro chunks cur chars idx
    cases cur <;> simp [splitGo]
  | cons d rest ih =>
    intro chunks cur chars idx
    simp only [splitGo]
    split
    · rw [ih]; simp
    · rw [ih]; simp

/-- C1: for every list of dialogue inputs and every positive character
budget, `split_dialogue_by_character_limit` returns chunks whose in-order
concatenation equals the input dialogue list exactly — no dialogue unit is
dropped, duplicated, split or reordered. -/
theorem chunks_join_eq_inputs (inputs : List DialogueInput) (maxChars : Nat)
    (original_text : String) (hpos : 0 < maxChars) :
    ((split_dialogue_by_character_limit inputs maxChars original_text).1).flatten = inputs := by
  unfold split_dialogue_by_character_limit split_core
  rw [splitGo_join]
  simp

/-- Witness for C1 at a concrete input. -/
theorem chunks_join_eq_inputs_witness :
    0 < 1000 ∧
      ((split_dialogue_by_character_limit [⟨"Hej!", "vA"⟩] 1000 "").1).flatten =
        [(⟨"Hej!", "vA"⟩ : DialogueInput)] :=
  ⟨by decide, chunks_join_eq_inputs [⟨"Hej!", "vA"⟩] 1000 "" (by decide)⟩

/-! ## C2: forced music boundaries plus greedy accumulation -/

theorem filterMap_ext {α β : Type} (f g : α → Option β) (h : ∀ a, f a = g a) :
    ∀ l : List α, l.filterMap f = l.filterMap g := by
  intro l
  induction l with
  | nil => rfl
  | cons a l ih => simp only [List.filterMap_cons, h a, ih]

/-- The source's running-counter music-position scan computes the spec's
take-and-count description, for any starting counter value. -/
theorem musicPosLoop_eq (segments : List Segment) :
    ∀ n : Nat, musicPosLoop segments n =
      (List.range segments.length).filterMap (fun k =>
        match segments[k]? with
        | some (Segment.music _) => some (n + (segments.take k).countP Segment.isDialogue)
        | _ => none) := by
  induction segments with
  | nil => intro n; simp [musicPosLoop]
  | cons s rest ih =>
    intro n
    rw [List.length_cons, List.range_succ_eq_map, List.filterMap_cons, List.filterMap_map]
    cases s with
    | music c =>
      simp only [musicPosLoop, List.getElem?_cons_zero, List.take_zero, List.countP_nil,
        Nat.add_zero]
      rw [ih n]
      refine congrArg (fun l => n :: l) (filterMap_ext _ _ ?_ _)
      intro j
      simp only [Function.comp_apply, List.getElem?_cons_succ, List.take_succ_cons]
      cases hj : rest[j]? with
      | none => rfl
      | some seg =>
        cases seg with
        | music c2 => simp [List.countP_cons, Segment.isDialogue]
        | dialogue sp co => rfl
    | dialogue sp co =>
      simp only [musicPosLoop, List.getElem?_cons_zero, List.take_zero, List.countP_nil]
      rw [ih (n + 1)]
      refine filterMap_ext _ _ ?_ _
      intro j
      simp only [Function.comp_apply, List.getElem?_cons_succ, List.take_succ_cons]
      cases hj : rest[j]? with
      | none => rfl
      | some seg =>
        cases seg with
        | music c2 =>
          simp [List.countP_cons, Segment.isDialogue]
          omega
        | dialogue sp2 co2 => rfl

/-- The source's music-position computation equals the spec's forced-break
description of the same script. -/
theorem find_music_positions_eq_spec (original_text : String) :
    find_music_positions original_text = specForcedBreaks (parse_conversation original_text) := by
  by_cases h : original_text = ""
  · subst h
    have hp : parse_conversation "" = [] := by decide
    simp [find_music_positions, specForcedBreaks, hp]
  · unfold find_music_positions specForcedBreaks
    rw [if_neg h, musicPosLoop_eq]
    exact filterMap_ext _ _ (fun k => by
      cases hk : (parse_conversation original_text).get? k with
      | none => simp [hk]
      | some seg => cases seg <;> simp [hk]) _

/-- The source chunking loop equals the spec-side greedy chunker, given the
invariant that the running character counter is the pending chunk's total
length. -/
theorem splitGo_eq_specGo (maxChars : Nat) (music : List Nat)
    (rest : List DialogueInput) :
    ∀ (chunks : List (List DialogueInput)) (cur : List DialogueInput) (idx : Nat),
      splitGo maxChars music rest chunks cur (sumLen cur) idx =
        chunks ++ specGo maxChars music (rest.enumFrom idx) cur (sumLen cur) := by
  induction rest with
  | nil =>
    intro chunks cur idx
    cases cur <;> simp [splitGo, specGo, List.enumFrom]
  | cons d rest ih =>
    intro chunks cur idx
    rw [List.enumFrom, splitGo, specGo]
    by_cases hcur : cur = []
    · subst hcur
      rw [if_neg (by simp)]
      have hlen : sumLen [] + d.text.length = sumLen [d] := by
        simp [sumLen_nil, sumLen_singleton]
      rw [show ([] ++ [d] : List DialogueInput) = [d] from rfl, hlen, ih]
      split
      · simp [sumLen_singleton, sumLen_nil]
      · simp [sumLen_singleton, sumLen_nil]
    · by_cases hbr : maxChars < sumLen cur + d.text.length ∨ idx ∈ music
      · rw [if_pos ⟨hbr, hcur⟩, if_pos hbr.symm]
        rw [show d.text.length = sumLen [d] from (sumLen_singleton d).symm, ih]
        simp [hcur]
      · rw [if_neg (fun hc => hbr hc.1), if_neg (fun hc => hbr hc.symm)]
        rw [show sumLen cur + d.text.length = sumLen (cur ++ [d]) from
          (sumLen_append_singleton cur d).symm, ih]

/-- C2: the chunker forces a boundary immediately before every dialogue
unit whose dialogue-stream position directly follows a music segment of the
original stream, even under budget, and otherwise accumulates greedily,
closing the current chunk exactly when adding the next unit would push the
running total over `maxChars` — stated as equality with the greedy
chunker transcribed from the spec. -/
theorem chunker_matches_greedy_spec (inputs : List DialogueInput) (maxChars : Nat)
    (original_text : String) :
    (split_dialogue_by_character_limit inputs maxChars original_text).1 =
      specChunk inputs maxChars (specForcedBreaks (parse_conversation original_text)) := by
  unfold split_dialogue_by_character_limit split_core specChunk
  rw [← find_music_positions_eq_spec]
  have h := splitGo_eq_specGo maxChars (find_music_positions original_text) inputs [] [] 0
  simpa [List.enum] using h

/-! ## C5: an oversized dialogue unit sits alone in its chunk -/

theorem splitGo_oversized (maxChars : Nat) (music : List Nat)
    (rest : List DialogueInput) :
    ∀ (chunks : List (List DialogueInput)) (cur : List DialogueInput) (idx : Nat),
      (∀ c ∈ chunks, ∀ u ∈ c, maxChars < u.text.length → c = [u]) →
      (∀ u ∈ cur, maxChars < u.text.length → cur = [u]) →
      ∀ c ∈ splitGo maxChars music rest chunks cur (sumLen cur) idx,
        ∀ u ∈ c, maxChars < u.text.length → c = [u] := by
  induction rest with
  | nil =>
    intro chunks cur idx hchunks hcur c hc
    by_cases h : cur.isEmpty
    · rw [splitGo, if_pos h] at hc
      exact hchunks c hc
    · rw [splitGo, if_neg h] at hc
      rcases List.mem_append.mp hc with hmem | hmem
      · exact hchunks c hmem
      · rw [List.mem_singleton.mp hmem]
        exact hcur
  | cons d rest ih =>
    intro chunks cur idx hchunks hcur
    rw [splitGo]
    by_cases hcond : (maxChars < sumLen cur + d.text.length ∨ idx ∈ music) ∧ cur ≠ []
    · rw [if_pos hcond,
        show d.text.length = sumLen [d] from (sumLen_singleton d).symm]
      refine ih (chunks ++ [cur]) [d] (idx + 1) ?_ ?_
      · intro c hc
        rcases List.mem_append.mp hc with hmem | hmem
        · exact hchunks c hmem
        · rw [List.mem_singleton.mp hmem]
          exact hcur
      · intro u hu _
        rw [List.mem_singleton.mp hu]
    · rw [if_neg hcond,
        show sumLen cur + d.text.length = sumLen (cur ++ [d]) from
          (sumLen_append_singleton cur d).symm]
      refine ih chunks (cur ++ [d]) (idx + 1) hchunks ?_
      intro u hu hlen
      rcases not_and_or.mp hcond with hnb | hnil
      · push_neg at hnb
        have hle : sumLen cur + d.text.length ≤ maxChars := hnb.1
        rcases List.mem_append.mp hu with hmem | hmem
        · have hcu := hcur u hmem hlen
          rw [hcu, sumLen_singleton] at hle
          omega
        · rw [List.mem_singleton.mp hmem] at hlen
          omega
      · push_neg at hnil
        subst hnil
        have hud : u = d := by simpa using hu
        simp [hud]

/-- C5: a dialogue unit whose text length exceeds `maxChars` is always
placed alone in its own chunk — never split, truncated or rejected. -/
theorem oversized_unit_isolated (inputs : List DialogueInput) (maxChars : Nat)
    (original_text : String) :
    ∀ c ∈ (split_dialogue_by_character_limit inputs maxChars original_text).1,
      ∀ u ∈ c, maxChars < u.text.length → c = [u] := by
  unfold split_dialogue_by_character_limit split_core
  exact splitGo_oversized maxChars (find_music_positions original_text) inputs [] [] 0
    (by simp) (by simp)

/-- Witness for C5: with `maxChars = 10` the 20-character unit forms a
single chunk holding exactly that unit. -/
theorem oversized_unit_isolated_witness :
    (split_dialogue_by_character_limit [oversizedUnit] 10 "").1 = [[oversizedUnit]] ∧
      [oversizedUnit] = [oversizedUnit] :=
  ⟨by decide, oversized_unit_isolated [oversizedUnit] 10 "" [oversizedUnit] (by decide)
    oversizedUnit (by decide) (by decide)⟩

theorem speaker_filter_eq (lines : List (List Char)) :
    (lines.map String.mk).filter (fun line =>
        line.data.contains ':' && (pySplitColonOnce line).length == 2) =
      (lines.filter codeSpeakerLineTest).map String.mk := by
  induction lines with
  | nil => rfl
  | cons l rest ih =>
    rw [List.map_cons]
    by_cases h : ':' ∈ l
    · have hc : l.contains ':' = true := by simpa using h
      have hp : pySplitColonOnce (String.mk l) = [String.mk (splitColon1 l).1,
          String.mk (splitColon1 l).2] := by
        unfold pySplitColonOnce
        rw [if_pos (by simpa using h)]
      have hcond : (fun line : String => line.data.contains ':' &&
          ((pySplitColonOnce line).length == 2)) (String.mk l) = true := by
        show (l.contains ':' && ((pySplitColonOnce (String.mk l)).length == 2)) = true
        rw [hc, hp]
        rfl
      rw [@List.filter_cons_of_pos String
          (fun line => line.data.contains ':' && ((pySplitColonOnce line).length == 2))
          (String.mk l) (List.map String.mk rest) hcond,
        List.filter_cons_of_pos (show codeSpeakerLineTest l = true from hc),
        List.map_cons]
      exact congrArg (List.cons (String.mk l)) ih
    · have hc : l.contains ':' = false := by simpa using h
      have hcond : (fun line : String => line.data.contains ':' &&
          ((pySplitColonOnce line).length == 2)) (String.mk l) = false := by
        show (l.contains ':' && ((pySplitColonOnce (String.mk l)).length == 2)) = false
        rw [hc, Bool.false_and]
      rw [@List.filter_cons_of_neg String
          (fun line => line.data.contains ':' && ((pySplitColonOnce line).length == 2))
          (String.mk l) (List.map String.mk rest)
          (fun hcontra => Bool.false_ne_true (hcond ▸ hcontra)),
        List.filter_cons_of_neg (by simpa [codeSpeakerLineTest] using h)]
      exact ih

/-- C7 (as amended): the conversational-format check returns true exactly
when at least two lines of the text pass the code's speaker-line test — a
line containing a colon, a strictly weaker test than the claimed
`"<Name>: "` pattern (see `conversation_format_counterexample`) — and when
it returns false the dispatcher takes the single-voice path, bypassing
chunking. -/
theorem conversation_format_detection (text : String) :
    (is_conversation_format text = true ↔
      2 ≤ ((splitOnNewline text.data).filter codeSpeakerLineTest).length) ∧
    (is_conversation_format text = false →
      generate_audio_route text = AudioPath.singleVoice) := by
  constructor
  · simp only [is_conversation_format, speaker_filter_eq, List.length_map,
      decide_eq_true_eq]
    omega
  · intro h
    unfold generate_audio_route
    simp [h]

/-- Witness for C7: a two-speaker text routes to conversation, a plain text
routes to single voice. -/
theorem conversation_format_detection_witness :
    is_conversation_format "Anna: Hej\nErik: Hej" = true ∧
      generate_audio_route "hello there" = AudioPath.singleVoice :=
  ⟨(conversation_format_detection "Anna: Hej\nErik: Hej").1.mpr (by decide),
    (conversation_format_detection "hello there").2 (by decide)⟩

/-- C7 counterexample: two timestamp lines contain colons, so
`is_conversation_format` returns true and the dispatcher takes the
conversation path, yet with the configured hosts Anna and Erik no line of
the text matches the spec's `"<Name>: "` speaker-line pattern — refuting
the claimed biconditional as originally stated. -/
theorem conversation_format_counterexample :
    is_conversation_format "kl 10:30\nkl 11:45" = true ∧
      ((splitOnNewline ("kl 10:30\nkl 11:45" : String).data).filter
        (specSpeakerLine demoHosts)).length = 0 ∧
      generate_audio_route "kl 10:30\nkl 11:45" = AudioPath.conversation := by
  refine ⟨by decide, by decide, by decide⟩

/-! ## C4: the two-chunk example -/

/-- C4: on the example script with `maxChars = 1000`, the pipeline of
`generate_dialogue_audio` — strip markers, parse, build the dialogue
inputs, chunk against the original text — yields exactly two chunks,
Anna's line then Erik's line (each unit carries the spoken text and the
speaker's voice; the speaker tag itself is consumed by the parser), and
the mapping entry `(1, [1])` places the resolved track at dialogue
position 1, the first unit of chunk 1, i.e. between chunk 0 and chunk 1;
the marker also resolves in the demo catalog. -/
theorem c4_two_chunks_music_between :
    split_dialogue_by_character_limit
        (build_complete_dialogue_inputs (remove_music_markers c4_script) demoHosts)
        1000 c4_script =
      ([[⟨"Hej!", "voiceAnna"⟩], [⟨"God morgon!", "voiceErik"⟩]], [(1, [1])]) ∧
      extract_music_cues_from_script demoCatalog c4_script [] =
        [mkIdCue "a1b2c3d4" demoTrack] := by
  constructor
  · decide
  · decide

/-! ## C3: music placement ignores the chunk-to-music mapping -/

/-- C3 (code bug): for the C3 script at `maxChars = 10` the chunker
produces three chunks and maps the resolved track to dialogue position 2 —
the first unit of chunk 2, so the track belongs between chunks 1 and 2 —
but the assembly loop of `integrate_music_with_speech` inserts it after
chunk 0 (the hardcoded `i in [0, 1, 3]` insertion points, which never read
the mapping), producing `[chunk0, music, chunk1, chunk2]` instead of
`[chunk0, chunk1, music, chunk2]`. -/
theorem music_placement_ignores_mapping :
    (split_dialogue_by_character_limit
        (build_complete_dialogue_inputs (remove_music_markers c3_script) demoHosts)
        10 c3_script).2 = [(2, [2])] ∧
      (split_dialogue_by_character_limit
        (build_complete_dialogue_inputs (remove_music_markers c3_script) demoHosts)
        10 c3_script).1.length = 3 ∧
      extract_music_cues_from_script demoCatalog c3_script [] =
        [mkIdCue "a1b2c3d4" demoTrack] ∧
      integration_sequence 3 (extract_music_cues_from_script demoCatalog c3_script [])
          [demoTrack.path] =
        [SeqItem.dialogue 0, SeqItem.music (mkIdCue "a1b2c3d4" demoTrack),
          SeqItem.dialogue 1, SeqItem.dialogue 2] ∧
      [SeqItem.dialogue 0, SeqItem.music (mkIdCue "a1b2c3d4" demoTrack),
          SeqItem.dialogue 1, SeqItem.dialogue 2] ≠
        [SeqItem.dialogue 0, SeqItem.dialogue 1,
          SeqItem.music (mkIdCue "a1b2c3d4" demoTrack), SeqItem.dialogue 2] := by
  refine ⟨by decide, by decide, by decide, by decide, by decide⟩

/-! ## C6: the intro-plus-main fallback chain -/

/-- C6: when the crossfade path fails, the plain-concatenation fallback
decides the result; when it fails too, the untouched main dialogue file is
returned; in every case the result is the combined output or the main
dialogue file, never empty. -/
theorem combine_fallback_chain (i m o : String) (n1 n2 cf f1 f2 fc : Bool)
    (hfail : (n1 && n2 && cf) = false) :
    (combine_intro_and_main i m o n1 n2 cf f1 f2 fc =
        if f1 && f2 && fc then o else m) ∧
      ((f1 && f2 && fc) = false → combine_intro_and_main i m o n1 n2 cf f1 f2 fc = m) ∧
      (combine_intro_and_main i m o n1 n2 cf f1 f2 fc = o ∨
        combine_intro_and_main i m o n1 n2 cf f1 f2 fc = m) := by
  unfold combine_intro_and_main
  rw [hfail]
  by_cases h2 : (f1 && f2 && fc) = true
  · simp [h2]
  · have h2f : (f1 && f2 && fc) = false := by
      cases hb : (f1 && f2 && fc)
      · rfl
      · exact absurd hb h2
    simp [h2f]

/-- Witness for C6: crossfade fails, fallback fails, the main file comes
back untouched. -/
theorem combine_fallback_chain_witness :
    combine_intro_and_main "intro.mp3" "main.mp3" "out.mp3" true true false false false false =
      "main.mp3" :=
  (combine_fallback_chain "intro.mp3" "main.mp3" "out.mp3" true true false false false false
    (by decide)).2.1 (by decide)

/-! ## C8: content-hash idempotence of `add_track` -/

theorem lookup_append_singleton_isSome (l : List (String × Track)) (k : String) (t : Track) :
    ((l ++ [(k, t)]).lookup k).isSome = true := by
  induction l with
  | nil => simp [List.lookup]
  | cons p l ih =>
    rcases p with ⟨k2, t2⟩
    rw [List.cons_append, List.lookup]
    by_cases h : k == k2
    · simp [h]
    · have hf : (k == k2) = false := by
        cases hb : (k == k2)
        · rfl
        · exact absurd hb h
      simp [hf, ih]

/-- C8: re-adding byte-identical content returns the same id both times,
the second call leaves the track map unchanged, and the id is the
8-character content hash (MD5 hex digests are 32 characters long). -/
theorem add_track_idempotent (md5hex : List Nat → String) (lib : MusicLibraryState)
    (content : List Nat) (ext a t : String) (cs ms : List String) (d : String)
    (ext2 a2 t2 : String) (cs2 ms2 : List String) (d2 : String)
    (hdigest : (md5hex content).data.length = 32) :
    (add_track md5hex (add_track md5hex lib content ext a t cs ms d).1
        content ext2 a2 t2 cs2 ms2 d2).2 =
      (add_track md5hex lib content ext a t cs ms d).2 ∧
    (add_track md5hex (add_track md5hex lib content ext a t cs ms d).1
        content ext2 a2 t2 cs2 ms2 d2).1 =
      (add_track md5hex lib content ext a t cs ms d).1 ∧
    ((add_track md5hex lib content ext a t cs ms d).2).data.length = 8 := by
  have hid : ∀ (lib2 : MusicLibraryState) (e a3 t3 : String) (c3 m3 : List String)
      (d3 : String), (add_track md5hex lib2 content e a3 t3 c3 m3 d3).2 =
        calculate_md5 md5hex content := by
    intro lib2 e a3 t3 c3 m3 d3
    unfold add_track
    by_cases h : (lib2.tracks.lookup (calculate_md5 md5hex content)).isSome = true
    · simp [h]
    · simp [h]
  have hmem : (((add_track md5hex lib content ext a t cs ms d).1).tracks.lookup
      (calculate_md5 md5hex content)).isSome = true := by
    unfold add_track
    by_cases h : (lib.tracks.lookup (calculate_md5 md5hex content)).isSome = true
    · simp [h]
    · simp [h, lookup_append_singleton_isSome]
  refine ⟨?_, ?_, ?_⟩
  · rw [hid, hid]
  · generalize hL : (add_track md5hex lib content ext a t cs ms d).1 = L at hmem ⊢
    simp only [add_track]
    rw [if_pos hmem]
  · rw [hid]
    show (((md5hex content).data.take 8)).length = 8
    rw [List.length_take, hdigest]
    decide

/-- Witness for C8 with a concrete digest function and an empty library. -/
theorem add_track_idempotent_witness :
    ((fun _ : List Nat => "0123456789abcdef0123456789abcdef") [7]).data.length = 32 ∧
      (add_track (fun _ => "0123456789abcdef0123456789abcdef")
          (add_track (fun _ => "0123456789abcdef0123456789abcdef") ⟨[]⟩ [7] ".mp3"
            "ArtistA" "TitleA" [] [] "").1
          [7] ".mp3" "ArtistB" "TitleB" [] [] "").1 =
        (add_track (fun _ => "0123456789abcdef0123456789abcdef") ⟨[]⟩ [7] ".mp3"
          "ArtistA" "TitleA" [] [] "").1 :=
  ⟨by decide,
    (add_track_idempotent (fun _ => "0123456789abcdef0123456789abcdef") ⟨[]⟩ [7] ".mp3"
      "ArtistA" "TitleA" [] [] "" ".mp3" "ArtistB" "TitleB" [] [] "" (by decide)).2.1⟩

/-! ## C9: `remove_track` behavior -/

theorem lookup_filter_out_self (l : List (String × Track)) (k : String) :
    (l.filter (fun p => !(p.1 == k))).lookup k = none := by
  induction l with
  | nil => rfl
  | cons p l ih =>
    rcases p with ⟨k2, t2⟩
    rw [List.filter_cons]
    by_cases h : k2 = k
    · subst h
      simp [ih]
    · have hf : (k2 == k) = false := by simpa using h
      have hk : (k == k2) = false := by simpa using (Ne.symm h)
      simp [hf, hk, List.lookup, ih]

theorem lookup_filter_out_other (l : List (String × Track)) (k k2 : String)
    (hne : k2 ≠ k) :
    (l.filter (fun p => !(p.1 == k))).lookup k2 = l.lookup k2 := by
  induction l with
  | nil => rfl
  | cons p l ih =>
    rcases p with ⟨k3, t3⟩
    rw [List.filter_cons]
    by_cases h : k3 = k
    · subst h
      have hk2 : (k2 == k3) = false := by simpa using hne
      simp [List.lookup, hk2, ih]
    · have hf : (k3 == k) = false := by simpa using h
      by_cases h2 : k2 = k3
      · subst h2
        simp [List.lookup, hf]
      · have hk2 : (k2 == k3) = false := by simpa using h2
        simp [List.lookup, hf, hk2, ih]

/-- C9: removing an unknown id returns false and changes nothing; removing
a known id always returns true and deletes the metadata entry — leaving
every other entry untouched — and the metadata outcome is the same for
every filesystem state, so a missing audio file never blocks metadata
removal. -/
theorem remove_track_behavior (lib : MusicLibraryState) (fs : List String)
    (track_id : String) :
    (lib.tracks.lookup track_id = none →
      remove_track lib fs track_id = (lib, fs, false)) ∧
    (∀ tr, lib.tracks.lookup track_id = some tr →
      (remove_track lib fs track_id).2.2 = true ∧
      (remove_track lib fs track_id).1.tracks.lookup track_id = none ∧
      (∀ k, k ≠ track_id →
        (remove_track lib fs track_id).1.tracks.lookup k = lib.tracks.lookup k) ∧
      (∀ fs2 : List String,
        (remove_track lib fs2 track_id).1 = (remove_track lib fs track_id).1 ∧
        (remove_track lib fs2 track_id).2.2 = (remove_track lib fs track_id).2.2)) := by
  constructor
  · intro h
    unfold remove_track
    rw [h]
  · intro tr h
    unfold remove_track
    rw [h]
    refine ⟨rfl, lookup_filter_out_self lib.tracks track_id, ?_, ?_⟩
    · intro k hk
      exact lookup_filter_out_other lib.tracks track_id k hk
    · intro fs2
      exact ⟨rfl, rfl⟩

/-- Witness for C9: a one-track library whose audio file is absent from the
filesystem still removes the metadata entry and reports success. -/
theorem remove_track_behavior_witness :
    (remove_track ⟨[("a1b2c3d4", demoTrack)]⟩ [] "a1b2c3d4").2.2 = true ∧
      (remove_track ⟨[("a1b2c3d4", demoTrack)]⟩ [] "a1b2c3d4").1.tracks.lookup
        "a1b2c3d4" = none :=
  ⟨((remove_track_behavior ⟨[("a1b2c3d4", demoTrack)]⟩ [] "a1b2c3d4").2 demoTrack
      (by decide)).1,
    ((remove_track_behavior ⟨[("a1b2c3d4", demoTrack)]⟩ [] "a1b2c3d4").2 demoTrack
      (by decide)).2.1⟩

/-! ## C10: ID-format cues shadow the legacy pattern -/

/-- C10: the ID pass produces a cue exactly when some captured marker
resolves in the catalog; when it produced at least one cue the extraction
result is exactly those cues, for any legacy captures (every legacy marker
is ignored); the legacy pass contributes only when the ID pass produced
zero cues. -/
theorem id_cues_shadow_legacy (tracks : List (String × Track)) (script : String)
    (legacyMatches : List (String × String × Option String)) :
    (id_cues tracks script ≠ [] ↔
      ∃ m ∈ findIdMatches script.data, (tracks.lookup (pyLower m)).isSome = true) ∧
    (id_cues tracks script ≠ [] →
      extract_music_cues_from_script tracks script legacyMatches =
        id_cues tracks script) ∧
    (id_cues tracks script = [] →
      extract_music_cues_from_script tracks script legacyMatches =
        legacyMatches.filterMap (legacyCueFor tracks)) := by
  refine ⟨?_, ?_, ?_⟩
  · unfold id_cues
    rw [ne_eq, List.filterMap_eq_nil_iff]
    constructor
    · intro h
      push_neg at h
      obtain ⟨m, hm, hne⟩ := h
      refine ⟨m, hm, ?_⟩
      cases hl : tracks.lookup (pyLower m) with
      | none => exact absurd (by simp [hl]) hne
      | some tr => rfl
    · intro ⟨m, hm, hsome⟩ hall
      have hthis : (match tracks.lookup (pyLower m) with
          | some track => some (mkIdCue (pyLower m) track)
          | none => none) = none := hall m hm
      cases hl : tracks.lookup (pyLower m) with
      | none =>
        rw [hl] at hsome
        exact Bool.false_ne_true hsome
      | some tr =>
        rw [hl] at hthis
        exact Option.noConfusion hthis
  · intro h
    unfold extract_music_cues_from_script
    rw [if_neg (by simpa [List.isEmpty_iff] using h)]
  · intro h
    unfold extract_music_cues_from_script
    rw [if_pos (by simpa [List.isEmpty_iff] using h)]

/-- Witness for C10: a script holding both an ID marker and a legacy
marker; the legacy capture would resolve, but the result is exactly the ID
cue. -/
theorem id_cues_shadow_legacy_witness :
    extract_music_cues_from_script demoCatalog
        "[MUSIK: a1b2c3d4]\n[MUSIK: ArtistA - TitleA]" [("ArtistA", "TitleA", none)] =
      id_cues demoCatalog "[MUSIK: a1b2c3d4]\n[MUSIK: ArtistA - TitleA]" :=
  (id_cues_shadow_legacy demoCatalog "[MUSIK: a1b2c3d4]\n[MUSIK: ArtistA - TitleA]"
    [("ArtistA", "TitleA", none)]).2.1 (by decide)
end Morgonradio
